import Mathlib

/-!
Verification of the image-resize plugin (src/main.ts).

The file embeds the two variants of the plugin:

* the wheel-zoom variant (`handleZoom`, `getZoomParams`, `isConfiguredKeyDown`
  and the wheel-event handler registered in `onload`), and
* the keyboard-step variant (the `resize` closure registered on keydown).

Document text is modelled as `List Char`.  JavaScript regular-expression
operations used by the source are specialised to the concrete patterns the
source uses (`/\|(\d+)\]/`, `/\]/`, the size-annotation patterns built by
the `Util` module) and implemented as deterministic left-to-right scans,
which is exactly the semantics of a first-match, non-global JS regex for
these backtracking-free patterns.

The `Util` module (`./src/util`) is imported by `main.ts` but its source is
not part of the repository snapshot; its three functions are modelled from
the specification (see the doc comments marked `Modelled from the spec:`).
-/

/-- Maximal run of decimal digits at the head of a character list, mirroring
what the greedy `\d+` consumes at a fixed position. -/
def digitsOf (cs : List Char) : List Char := cs.takeWhile (fun c => c.isDigit)

/-- Remainder after the maximal digit run. -/
def afterDigits (cs : List Char) : List Char := cs.dropWhile (fun c => c.isDigit)

/-- Numeric value of a digit string, as `parseInt(s, 10)` computes it for a
string of decimal digits. -/
def digitsToNat (cs : List Char) : Nat :=
  cs.foldl (fun a c => 10 * a + (c.toNat - 48)) 0

/-- Decimal rendering of an integer, as JavaScript template interpolation
renders an integral number. -/
def intRepr (i : Int) : List Char := (toString i).data

/-- Does `pat` occur at the head of `t`? -/
def hasPrefixL : List Char → List Char → Bool
  | [], _ => true
  | _ :: _, [] => false
  | p :: ps, c :: cs => p = c && hasPrefixL ps cs

/-- Does `pat` occur anywhere in `t` (JS `String.prototype.contains` /
`includes`, which Obsidian polyfills onto strings)? -/
def containsSub (pat : List Char) : List Char → Bool
  | [] => hasPrefixL pat []
  | t@(_ :: rest) => hasPrefixL pat t || containsSub pat rest

/-- Replace the first occurrence of the literal `pat` in a text by `repl`,
which is the behaviour of JS `String.prototype.replace` with a
non-global pattern; if `pat` does not occur the text is returned
unchanged. -/
def replaceFirst (pat repl : List Char) : List Char → List Char
  | [] => if hasPrefixL pat [] then repl else []
  | t@(c :: rest) =>
      if hasPrefixL pat t then repl ++ t.drop pat.length
      else c :: replaceFirst pat repl rest

/-- First match of the regex `/\|(\d+)\]/` in a line (the keyboard-step
variant's pattern, main.ts line 328): scanning left to right, the first
position holding `'|'`, then a nonempty maximal digit run, then `']'`.
Returns the text before the match, the digit run, and the text after. -/
def findPipeNum : List Char → Option (List Char × List Char × List Char)
  | [] => none
  | c :: rest =>
      if c = '|' ∧ digitsOf rest ≠ [] ∧ hasPrefixL [']'] (afterDigits rest) then
        some ([], digitsOf rest, (afterDigits rest).drop 1)
      else
        (findPipeNum rest).map (fun r => (c :: r.1, r.2.1, r.2.2))

/-- `line.replace(/\]/, "|100]")` — replace the first `']'` of the line by
the five characters `|100]` (main.ts line 339). -/
def replaceFirstClose : List Char → List Char
  | [] => []
  | c :: rest =>
      if c = ']' then '|' :: '1' :: '0' :: '0' :: ']' :: rest
      else c :: replaceFirstClose rest

/-- The keyboard-step variant's `resize` closure (main.ts lines 322-344),
restricted to its pure effect on the cursor line: match `/\|(\d+)\]/`;
if matched, compute `newWidth = matchText + scale` and abandon the edit
when `newWidth < 50`, otherwise rewrite the matched annotation; if not
matched, insert `|100]` before the first `']'`. -/
def resize (scale : Int) (line : List Char) : List Char :=
  match findPipeNum line with
  | some (pre, ds, post) =>
      let matchText : Int := (digitsToNat ds : Int)
      let newWidth : Int := matchText + scale
      if newWidth < 50 then line
      else pre ++ '|' :: intRepr newWidth ++ ']' :: post
  | none => replaceFirstClose line

/-! ## Wheel-zoom variant: settings, zoom parameters, Util model -/

/-- The modifier-key enumeration of main.ts lines 17-21. -/
inductive ModifierKey where
  | ALT
  | CTRL
  | SHIFT
deriving DecidableEq

/-- The `MouseWheelZoomSettings` interface (main.ts lines 11-15). -/
structure MouseWheelZoomSettings where
  initialSize : Int
  modifierKey : ModifierKey
  stepSize : Int

/-- `DEFAULT_SETTINGS` (main.ts lines 23-27). -/
def DEFAULT_SETTINGS : MouseWheelZoomSettings :=
  { modifierKey := ModifierKey.ALT, stepSize := 25, initialSize := 500 }

/-- One pair of replace rules of a `HandleZoomParams`: a from-string
parameterized by the old size and a with-string parameterized by the new
size. -/
structure ReplaceTerm where
  getReplaceFromString : Int → List Char
  getReplaceWithString : Int → List Char

/-- The `HandleZoomParams` value built by the `Util` module: a pattern that
detects an existing size annotation and captures its numeric value, and
the two replace-rule pairs. -/
structure HandleZoomParams where
  sizeMatchRegExp : List Char → Option Int
  replaceSizeExist : ReplaceTerm
  replaceSizeNotExist : ReplaceTerm

/-- First match, scanning left to right, of the pattern
`pat ++ (\d+) ++ sfx` where the digit run is greedy and nonempty; returns
the captured numeric value.  This is the shared shape of the size-annotation
detection patterns. -/
def matchNumAfter (pat sfx : List Char) : List Char → Option Int
  | [] => none
  | t@(_ :: rest) =>
      if hasPrefixL pat t ∧ digitsOf (t.drop pat.length) ≠ [] ∧
          hasPrefixL sfx (afterDigits (t.drop pat.length)) then
        some ((digitsToNat (digitsOf (t.drop pat.length)) : Nat) : Int)
      else matchNumAfter pat sfx rest

/-- Modelled from the spec: `Util.getLocalImageZoomParams` (imported from
`./src/util`, whose source is not in the repository snapshot).  Per §4.1,
local-attachment syntax: the existing-size pattern matches
`![[name|NNN]]` literally and the replace rule substitutes only the
numeric value; the no-size pattern matches `![[name]]` and the replace
rule becomes `![[name|NNN]]`.  (The spec's regex-escaping of the name is
the identity here because the pattern is modelled as a literal
substring.) -/
def getLocalImageZoomParams (imageName : List Char) : HandleZoomParams :=
  { sizeMatchRegExp := fun text =>
      matchNumAfter ("![[".data ++ imageName ++ "|".data) "]]".data text
    replaceSizeExist :=
      { getReplaceFromString := fun size =>
          "![[".data ++ imageName ++ '|' :: intRepr size ++ "]]".data
        getReplaceWithString := fun size =>
          "![[".data ++ imageName ++ '|' :: intRepr size ++ "]]".data }
    replaceSizeNotExist :=
      { getReplaceFromString := fun _ => "![[".data ++ imageName ++ "]]".data
        getReplaceWithString := fun size =>
          "![[".data ++ imageName ++ '|' :: intRepr size ++ "]]".data } }

/-- Modelled from the spec: `Util.getRemoteImageZoomParams` (imported from
`./src/util`, source not in the snapshot).  Per §4.1, remote-image
syntax: the size is stored as a query-style parameter appended to the
reference string (the spec's example form `?width=NNN`); the replace rule
substitutes only the numeric value, preserving the base URL, and the
no-size rule appends the parameter sequence. -/
def getRemoteImageZoomParams (imageUri : List Char) : HandleZoomParams :=
  { sizeMatchRegExp := fun text =>
      matchNumAfter (imageUri ++ "?width=".data) [] text
    replaceSizeExist :=
      { getReplaceFromString := fun size =>
          imageUri ++ "?width=".data ++ intRepr size
        getReplaceWithString := fun size =>
          imageUri ++ "?width=".data ++ intRepr size }
    replaceSizeNotExist :=
      { getReplaceFromString := fun _ => imageUri
        getReplaceWithString := fun size =>
          imageUri ++ "?width=".data ++ intRepr size } }

/-- Suffix of a character list after its last `'/'`; the whole list when no
`'/'` occurs.  This is `s.substring(s.lastIndexOf("/") + 1)` (main.ts
lines 173-175): `lastIndexOf` returns `-1` when absent, so the substring
starts at 0 and is the whole string. -/
def afterLastSlash : List Char → List Char
  | [] => []
  | c :: rest => if c = '/' ∨ '/' ∈ rest then afterLastSlash rest else c :: rest

/-- Numeric value of a hexadecimal digit, if any. -/
def hexVal (c : Char) : Option Nat :=
  if c.isDigit then some (c.toNat - 48)
  else if 'a' ≤ c ∧ c ≤ 'f' then some (c.toNat - 87)
  else if 'A' ≤ c ∧ c ≤ 'F' then some (c.toNat - 55)
  else none

/-- Percent-decoding of a URI component. -/
def percentDecode : List Char → List Char
  | [] => []
  | '%' :: h1 :: h2 :: rest =>
      (match hexVal h1, hexVal h2 with
       | some a, some b => [Char.ofNat (16 * a + b)]
       | _, _ => ['%', h1, h2]) ++ percentDecode rest
  | c :: rest => c :: percentDecode rest

/-- Modelled from the spec: `Util.getLocalImageNameFromUri` (imported from
`./src/util`, source not in the snapshot).  Per §4.1, it extracts the bare
file name component from an `app://` identifier: strip the query part,
take the component after the last path separator, URL-decode. -/
def getLocalImageNameFromUri (imageUri : List Char) : List Char :=
  percentDecode (afterLastSlash (imageUri.takeWhile (fun c => c ≠ '?')))

/-! ## Wheel-zoom variant: dispatch, zoom handler, event wiring -/

/-- The element metadata the wheel handler consults: the node name of the
event target, its `classList.value`, and its `filesource` attribute. -/
structure ElementInfo where
  nodeName : List Char
  classValue : List Char
  filesource : List Char

/-- `getZoomParams` (main.ts lines 162-180): first-match-wins dispatch on
the image reference.  A URI containing `"http"` selects the remote-image
builder; else a URI containing `"app://"` selects the local-attachment
builder on the name extracted from the URI; else a `classList.value`
matching the regex `excalidraw-svg.*` (equivalently, containing
`excalidraw-svg`) selects the local-attachment builder on the name derived
from the `filesource` attribute by dropping its final 3 characters and
taking the part after the last `'/'`; otherwise the call throws
`"Image is not zoomable"`.  The source forwards `fileText` to the `Util`
builders; per spec §3 a `ZoomParams` is created from the image reference's
identifying string alone, so the modelled builders do not consume it. -/
def getZoomParams (imageUri : List Char) (_fileText : List Char) (target : ElementInfo) :
    Except String HandleZoomParams :=
  if containsSub "http".data imageUri then
    Except.ok (getRemoteImageZoomParams imageUri)
  else if containsSub "app://".data imageUri then
    Except.ok (getLocalImageZoomParams (getLocalImageNameFromUri imageUri))
  else if containsSub "excalidraw-svg".data target.classValue then
    Except.ok (getLocalImageZoomParams
      (afterLastSlash (target.filesource.take (target.filesource.length - 3))))
  else
    Except.error "Image is not zoomable"

/-- The size update of `handleZoom` (main.ts lines 111-117): `newSize`
starts at `oldSize`, is incremented by the step when `deltaY < 0`, and is
decremented by the step when `deltaY > 0` and the guard `newSize > stepSize`
(evaluated before the subtraction, on the still-unmodified value) holds. -/
def computeNewSize (stepSize oldSize deltaY : Int) : Int :=
  if deltaY < 0 then oldSize + stepSize
  else if deltaY > 0 ∧ oldSize > stepSize then oldSize - stepSize
  else oldSize

/-- Result of one `handleZoom` call: the final document text, and the list
of texts written back to the vault (`app.vault.modify` calls). -/
structure ZoomResult where
  text : List Char
  writes : List (List Char)
deriving DecidableEq

/-- The text mutation of `handleZoom` (main.ts lines 96-139) after the zoom
parameters have been resolved.  The document text is read once into
`fileText`; when the size pattern matches, the existing annotation with the
old size is replaced by the annotation with `computeNewSize`; otherwise the
no-size annotation is replaced by one carrying
`min naturalWidth initialSize`; the result is written back exactly when it
differs from the original text. -/
def handleZoom (settings : MouseWheelZoomSettings) (zoomParams : HandleZoomParams)
    (deltaY naturalWidth : Int) (fileText : List Char) : ZoomResult :=
  let originalFileText := fileText
  let fileText1 :=
    match zoomParams.sizeMatchRegExp fileText with
    | some oldSize =>
        replaceFirst (zoomParams.replaceSizeExist.getReplaceFromString oldSize)
          (zoomParams.replaceSizeExist.getReplaceWithString
            (computeNewSize settings.stepSize oldSize deltaY))
          fileText
    | none =>
        replaceFirst (zoomParams.replaceSizeNotExist.getReplaceFromString 0)
          (zoomParams.replaceSizeNotExist.getReplaceWithString
            (min naturalWidth settings.initialSize))
          fileText
  { text := fileText1
    writes := if fileText1 = originalFileText then [] else [fileText1] }

/-- Outcome of one full zoom attempt: either the thrown error message
(in which case no write happened), or the completed `ZoomResult`. -/
inductive ZoomOutcome where
  | threw (msg : String)
  | completed (r : ZoomResult)
deriving DecidableEq

/-- Vault writes performed during an outcome: none when the attempt threw
before reaching the replacement (the `getZoomParams` throw on main.ts line
179 happens before any `vault.modify`). -/
def outcomeWrites : ZoomOutcome → List (List Char)
  | ZoomOutcome.threw _ => []
  | ZoomOutcome.completed r => r.writes

/-- Final document text of an outcome, given the originally read text: a
thrown attempt leaves the document as read. -/
def outcomeText (original : List Char) : ZoomOutcome → List Char
  | ZoomOutcome.threw _ => original
  | ZoomOutcome.completed r => r.text

/-- One zoom attempt (main.ts lines 91-140): resolve the zoom parameters
from the image URI and the target element, then run the text mutation;
an unresolvable reference throws and mutates nothing. -/
def handleZoomEvent (settings : MouseWheelZoomSettings) (deltaY naturalWidth : Int)
    (imageUri : List Char) (target : ElementInfo) (fileText : List Char) :
    ZoomOutcome :=
  match getZoomParams imageUri fileText target with
  | Except.error e => ZoomOutcome.threw e
  | Except.ok zoomParams =>
      ZoomOutcome.completed (handleZoom settings zoomParams deltaY naturalWidth fileText)

/-- The wheel-event payload fields the plugin reads. -/
structure WheelEvt where
  deltaY : Int
  altKey : Bool
  ctrlKey : Bool
  shiftKey : Bool

/-- `isConfiguredKeyDown` (main.ts lines 221-230): does the event payload
report the configured modifier key as active? -/
def isConfiguredKeyDown (settings : MouseWheelZoomSettings) (evt : WheelEvt) : Bool :=
  match settings.modifierKey with
  | ModifierKey.ALT => evt.altKey
  | ModifierKey.CTRL => evt.ctrlKey
  | ModifierKey.SHIFT => evt.shiftKey

/-- The plugin's mutable session state: the key-held flag and whether the
normal scroll event is currently disabled. -/
structure PluginState where
  isKeyHeldDown : Bool
  scrollDisabled : Bool
deriving DecidableEq

/-- `onConfigKeyUp` (main.ts lines 75-78): clear the key-held flag and
re-enable scrolling. -/
def onConfigKeyUp (_st : PluginState) : PluginState :=
  { isKeyHeldDown := false, scrollDisabled := false }

/-- The wheel handler registered in `onload` (main.ts lines 49-65), with the
zoom attempt abstracted to a `Bool` saying whether `handleZoom` was invoked:
when the key-held flag is set but the event payload does not report the
configured modifier as active, the handler runs `onConfigKeyUp` and returns
without zooming; otherwise it zooms exactly when the target is an `IMG`
element. -/
def onWheelEvent (settings : MouseWheelZoomSettings) (st : PluginState)
    (evt : WheelEvt) (target : ElementInfo) : PluginState × Bool :=
  if st.isKeyHeldDown then
    if ¬ isConfiguredKeyDown settings evt then (onConfigKeyUp st, false)
    else if target.nodeName = "IMG".data then (st, true)
    else (st, false)
  else (st, false)

/-! ## Helper lemmas -/

theorem hasPrefixL_append_drop (pat : List Char) :
    ∀ t : List Char, hasPrefixL pat t = true → pat ++ t.drop pat.length = t := by
  induction pat with
  | nil => intro t _; simp
  | cons p ps ih =>
    intro t h
    cases t with
    | nil => simp [hasPrefixL] at h
    | cons c cs =>
      simp only [hasPrefixL, Bool.and_eq_true, decide_eq_true_eq] at h
      obtain ⟨h1, h2⟩ := h
      subst h1
      simpa using ih cs h2

theorem replaceFirst_self (pat : List Char) :
    ∀ t : List Char, replaceFirst pat pat t = t := by
  intro t
  induction t with
  | nil =>
    cases pat <;> simp [replaceFirst, hasPrefixL]
  | cons c cs ih =>
    rw [replaceFirst]
    by_cases h : hasPrefixL pat (c :: cs) = true
    · rw [if_pos h]
      exact hasPrefixL_append_drop pat (c :: cs) h
    · rw [if_neg h, ih]

theorem findPipeNum_eq_some (l : List Char) :
    ∀ pre ds post : List Char, findPipeNum l = some (pre, ds, post) →
      l = pre ++ '|' :: (ds ++ ']' :: post) ∧ ds ≠ [] := by
  induction l with
  | nil => intro pre ds post h; simp [findPipeNum] at h
  | cons c rest ih =>
    intro pre ds post h
    rw [findPipeNum] at h
    split at h
    · rename_i hc
      obtain ⟨hc1, hc2, hc3⟩ := hc
      have hdrop : [']'] ++ (afterDigits rest).drop 1 = afterDigits rest :=
        hasPrefixL_append_drop [']'] (afterDigits rest) hc3
      simp only [Option.some.injEq, Prod.mk.injEq] at h
      obtain ⟨hpre, hds, hpost⟩ := h
      subst hpre; subst hds; subst hpost; subst hc1
      constructor
      · have h2 : digitsOf rest ++ (']' :: (afterDigits rest).drop 1) = rest := by
          have h3 := List.takeWhile_append_dropWhile
            (p := fun ch => ch.isDigit) (l := rest)
          calc digitsOf rest ++ (']' :: (afterDigits rest).drop 1)
              = digitsOf rest ++ ([']'] ++ (afterDigits rest).drop 1) := by simp
            _ = digitsOf rest ++ afterDigits rest := by rw [hdrop]
            _ = rest := h3
        simpa using congrArg (fun x => '|' :: x) h2.symm
      · exact hc2
    · cases hr : findPipeNum rest with
      | none => rw [hr] at h; exact Option.noConfusion h
      | some r =>
        rw [hr] at h
        simp only [Option.map_some', Option.some.injEq, Prod.mk.injEq] at h
        obtain ⟨hpre, hds, hpost⟩ := h
        obtain ⟨hrest, hne⟩ := ih r.1 r.2.1 r.2.2 (by rw [hr])
        subst hpre; subst hds; subst hpost
        constructor
        · simp [hrest]
        · exact hne

theorem replaceFirstClose_split (post : List Char) :
    ∀ pre : List Char, ']' ∉ pre →
      replaceFirstClose (pre ++ ']' :: post) =
        pre ++ '|' :: '1' :: '0' :: '0' :: ']' :: post := by
  intro pre
  induction pre with
  | nil => intro _; simp [replaceFirstClose]
  | cons c cs ih =>
    intro hpre
    have hc : c ≠ ']' := fun hh => hpre (by simp [hh])
    have hcs : ']' ∉ cs := fun hh => hpre (by simp [hh])
    simp only [List.cons_append, replaceFirstClose, if_neg hc]
    exact congrArg (fun x => c :: x) (ih hcs)

/-! ## Claim theorems: keyboard-step variant -/

/-- C2: keyboard-step variant, matched case.  For every cursor line whose
first `|N]` annotation is found by the `/\|(\d+)\]/` match (splitting the
line as `pre ++ "|" ++ ds ++ "]" ++ post`), the grow shortcut's call
`resize 100` computes `N + 100` and the shrink shortcut's call
`resize (-100)` computes `N - 100`; whenever the computed new size is
strictly below 50 the edit is abandoned and the line is returned completely
unchanged, and otherwise the matched annotation is rewritten to the new
value. -/
theorem resize_matched_case (line pre ds post : List Char)
    (h : findPipeNum line = some (pre, ds, post)) :
    line = pre ++ '|' :: (ds ++ ']' :: post) ∧
    (∀ scale : Int, scale = 100 ∨ scale = -100 →
      ((digitsToNat ds : Int) + scale < 50 → resize scale line = line) ∧
      (¬ (digitsToNat ds : Int) + scale < 50 →
        resize scale line =
          pre ++ '|' :: intRepr ((digitsToNat ds : Int) + scale) ++ ']' :: post)) := by
  refine ⟨(findPipeNum_eq_some line pre ds post h).1, ?_⟩
  intro scale _
  constructor
  · intro hlt
    simp only [resize, h]
    rw [if_pos hlt]
  · intro hge
    simp only [resize, h]
    rw [if_neg hge]

/-- Witness for C2 at the line `![[a|60]]`: grow rewrites to `![[a|160]]`,
while shrink (60 - 100 = -40 < 50) leaves the line unchanged. -/
theorem resize_matched_case_witness :
    findPipeNum "![[a|60]]".data = some ("![[a".data, "60".data, "]".data) ∧
    resize 100 "![[a|60]]".data = "![[a|160]]".data ∧
    resize (-100) "![[a|60]]".data = "![[a|60]]".data := by
  refine ⟨by decide, ?_, ?_⟩
  · exact (((resize_matched_case "![[a|60]]".data "![[a".data "60".data "]".data
      (by decide)).2 100 (Or.inl rfl)).2 (by decide)).trans (by decide)
  · exact ((resize_matched_case "![[a|60]]".data "![[a".data "60".data "]".data
      (by decide)).2 (-100) (Or.inr rfl)).1 (by decide)

/-- C5: keyboard-step variant, unmatched case.  For every cursor line with
no `|N]` annotation, both the grow call `resize 100` and the shrink call
`resize (-100)` insert the default annotation `|100]` immediately before the
line's first closing bracket, leaving the rest of the line unchanged. -/
theorem resize_unmatched_case (line pre post : List Char)
    (h : findPipeNum line = none)
    (hline : line = pre ++ ']' :: post) (hpre : ']' ∉ pre) :
    resize 100 line = pre ++ '|' :: '1' :: '0' :: '0' :: ']' :: post ∧
    resize (-100) line = pre ++ '|' :: '1' :: '0' :: '0' :: ']' :: post := by
  have hr : replaceFirstClose line = pre ++ '|' :: '1' :: '0' :: '0' :: ']' :: post := by
    rw [hline]; exact replaceFirstClose_split post pre hpre
  constructor <;> · simp only [resize, h]; exact hr

/-- Witness for C5 at the line `![[pic.png]]`: both shortcuts produce
`![[pic.png|100]]`. -/
theorem resize_unmatched_case_witness :
    findPipeNum "![[pic.png]]".data = none ∧
    resize 100 "![[pic.png]]".data = "![[pic.png|100]]".data ∧
    resize (-100) "![[pic.png]]".data = "![[pic.png|100]]".data := by
  have h := resize_unmatched_case "![[pic.png]]".data "![[pic.png".data "]".data
    (by decide) (by decide) (by decide)
  exact ⟨by decide, h.1.trans (by decide), h.2.trans (by decide)⟩

/-- C9: in the keyboard-step variant, the grow call `resize 100` on a line
with a matched `|N]` annotation can never hit the abandon-below-50 branch:
the captured `N` is a nonnegative integer, so `N + 100 ≥ 100 ≥ 50`, and grow
always rewrites the annotation. -/
theorem resize_grow_never_floors (line pre ds post : List Char)
    (h : findPipeNum line = some (pre, ds, post)) :
    ¬ ((digitsToNat ds : Int) + 100 < 50) ∧
    resize 100 line =
      pre ++ '|' :: intRepr ((digitsToNat ds : Int) + 100) ++ ']' :: post := by
  have hge : ¬ ((digitsToNat ds : Int) + 100 < 50) := by
    have h0 : (0 : Int) ≤ (digitsToNat ds : Int) := Int.ofNat_nonneg _
    omega
  refine ⟨hge, ?_⟩
  simp only [resize, h]
  rw [if_neg hge]

/-- Witness for C9 at the line `x[img|7]`: even from the small value 7, grow
rewrites to `x[img|107]` rather than abandoning. -/
theorem resize_grow_never_floors_witness :
    findPipeNum "x[img|7]".data = some ("x[img".data, "7".data, []) ∧
    resize 100 "x[img|7]".data = "x[img|107]".data := by
  refine ⟨by decide, ?_⟩
  exact ((resize_grow_never_floors "x[img|7]".data "x[img".data "7".data []
    (by decide)).2).trans (by decide)

/-! ## Claim theorems: wheel-zoom variant -/

/-- C1: wheel-zoom size computation.  When the document text already holds
a size annotation with value `V`, the text rewritten by `handleZoom`
substitutes the annotation carrying `computeNewSize` for the one carrying
`V`, and `computeNewSize` yields `V + S` for a wheel event with
`deltaY < 0`, yields `V - S` for `deltaY > 0` exactly when the guard
`V > S` (the literal comparison `newSize > stepSize`, evaluated before the
subtraction while `newSize` still equals `V`) holds, and yields `V`
otherwise. -/
theorem handleZoom_size_step (settings : MouseWheelZoomSettings)
    (zoomParams : HandleZoomParams) (deltaY naturalWidth V : Int)
    (fileText : List Char)
    (h : zoomParams.sizeMatchRegExp fileText = some V) :
    (handleZoom settings zoomParams deltaY naturalWidth fileText).text =
      replaceFirst (zoomParams.replaceSizeExist.getReplaceFromString V)
        (zoomParams.replaceSizeExist.getReplaceWithString
          (computeNewSize settings.stepSize V deltaY)) fileText ∧
    (deltaY < 0 → computeNewSize settings.stepSize V deltaY = V + settings.stepSize) ∧
    (deltaY > 0 → V > settings.stepSize →
      computeNewSize settings.stepSize V deltaY = V - settings.stepSize) ∧
    (deltaY > 0 → ¬ V > settings.stepSize →
      computeNewSize settings.stepSize V deltaY = V) := by
  refine ⟨?_, ?_, ?_, ?_⟩
  · simp only [handleZoom, h]
  · intro hd
    rw [computeNewSize, if_pos hd]
  · intro hd hv
    rw [computeNewSize, if_neg (by omega), if_pos ⟨hd, hv⟩]
  · intro hd hv
    rw [computeNewSize, if_neg (by omega), if_neg (fun hh => hv hh.2)]

/-- Witness for C1 with the default step 25 on `![[pic.png|100]]` and
`![[pic.png|20]]`: scroll away from the user gives 125, scroll toward the
user gives 75, and from 20 (not above the step) the size stays at 20. -/
theorem handleZoom_size_step_witness :
    (handleZoom DEFAULT_SETTINGS (getLocalImageZoomParams "pic.png".data)
      (-1) 300 "![[pic.png|100]]".data).text = "![[pic.png|125]]".data ∧
    (handleZoom DEFAULT_SETTINGS (getLocalImageZoomParams "pic.png".data)
      1 300 "![[pic.png|100]]".data).text = "![[pic.png|75]]".data ∧
    (handleZoom DEFAULT_SETTINGS (getLocalImageZoomParams "pic.png".data)
      1 300 "![[pic.png|20]]".data).text = "![[pic.png|20]]".data ∧
    computeNewSize 25 100 (-1) = 125 ∧
    computeNewSize 25 100 1 = 75 ∧
    computeNewSize 25 20 1 = 20 := by
  have h1 := handleZoom_size_step DEFAULT_SETTINGS
    (getLocalImageZoomParams "pic.png".data) (-1) 300 100 "![[pic.png|100]]".data
    (by decide)
  have h2 := handleZoom_size_step DEFAULT_SETTINGS
    (getLocalImageZoomParams "pic.png".data) 1 300 100 "![[pic.png|100]]".data
    (by decide)
  have h3 := handleZoom_size_step DEFAULT_SETTINGS
    (getLocalImageZoomParams "pic.png".data) 1 300 20 "![[pic.png|20]]".data
    (by decide)
  refine ⟨h1.1.trans (by decide), h2.1.trans (by decide), h3.1.trans (by decide),
    (h1.2.1 (by decide)).trans (by decide),
    (h2.2.2.1 (by decide) (by decide)).trans (by decide),
    (h3.2.2.2 (by decide) (by decide)).trans (by decide)⟩

/-- C3: wheel-zoom no-annotation case.  When the document text has no
existing size annotation, `handleZoom` rewrites the bare reference to one
annotated with `min naturalWidth initialSize`. -/
theorem handleZoom_initial_size (settings : MouseWheelZoomSettings)
    (zoomParams : HandleZoomParams) (deltaY naturalWidth : Int)
    (fileText : List Char)
    (h : zoomParams.sizeMatchRegExp fileText = none) :
    (handleZoom settings zoomParams deltaY naturalWidth fileText).text =
      replaceFirst (zoomParams.replaceSizeNotExist.getReplaceFromString 0)
        (zoomParams.replaceSizeNotExist.getReplaceWithString
          (min naturalWidth settings.initialSize)) fileText := by
  simp only [handleZoom, h]

/-- Witness for C3, checking the spec's two examples: with initialSize 500,
natural width 300 annotates `![[pic.png|300]]` and natural width 800
annotates `![[pic.png|500]]`. -/
theorem handleZoom_initial_size_witness :
    (getLocalImageZoomParams "pic.png".data).sizeMatchRegExp
      "![[pic.png]]".data = none ∧
    (handleZoom DEFAULT_SETTINGS (getLocalImageZoomParams "pic.png".data)
      (-1) 300 "![[pic.png]]".data).text = "![[pic.png|300]]".data ∧
    (handleZoom DEFAULT_SETTINGS (getLocalImageZoomParams "pic.png".data)
      (-1) 800 "![[pic.png]]".data).text = "![[pic.png|500]]".data := by
  refine ⟨by decide, ?_, ?_⟩
  · exact (handleZoom_initial_size DEFAULT_SETTINGS
      (getLocalImageZoomParams "pic.png".data) (-1) 300 "![[pic.png]]".data
      (by decide)).trans (by decide)
  · exact (handleZoom_initial_size DEFAULT_SETTINGS
      (getLocalImageZoomParams "pic.png".data) (-1) 800 "![[pic.png]]".data
      (by decide)).trans (by decide)

/-- C8: write-back frame condition.  For every wheel-zoom call the list of
vault writes is empty when the computed text equals the originally read
text and is exactly the one changed text otherwise; in particular at most
one write happens and the originally read text is never written back. -/
theorem handleZoom_write_discipline (settings : MouseWheelZoomSettings)
    (zoomParams : HandleZoomParams) (deltaY naturalWidth : Int)
    (fileText : List Char) :
    (handleZoom settings zoomParams deltaY naturalWidth fileText).writes =
      (if (handleZoom settings zoomParams deltaY naturalWidth fileText).text = fileText
        then []
        else [(handleZoom settings zoomParams deltaY naturalWidth fileText).text]) ∧
    (handleZoom settings zoomParams deltaY naturalWidth fileText).writes.length ≤ 1 ∧
    fileText ∉ (handleZoom settings zoomParams deltaY naturalWidth fileText).writes := by
  have hw : (handleZoom settings zoomParams deltaY naturalWidth fileText).writes =
      (if (handleZoom settings zoomParams deltaY naturalWidth fileText).text = fileText
        then []
        else [(handleZoom settings zoomParams deltaY naturalWidth fileText).text]) := rfl
  refine ⟨hw, ?_, ?_⟩
  · rw [hw]; split <;> simp
  · rw [hw]; split
    · simp
    · rename_i hne
      simp only [List.mem_singleton]
      exact fun hh => hne hh.symm

/-- Witness for C8: a zero-delta wheel tick on an already-annotated document
computes an identical text and performs no write, while a zoom-in tick
performs exactly one write of the changed text. -/
theorem handleZoom_write_discipline_witness :
    (handleZoom DEFAULT_SETTINGS (getLocalImageZoomParams "a".data)
      0 300 "![[a|100]]".data).writes = [] ∧
    (handleZoom DEFAULT_SETTINGS (getLocalImageZoomParams "a".data)
      (-1) 300 "![[a|100]]".data).writes = ["![[a|125]]".data] := by
  constructor
  · exact (handleZoom_write_discipline DEFAULT_SETTINGS
      (getLocalImageZoomParams "a".data) 0 300 "![[a|100]]".data).1.trans (by decide)
  · exact (handleZoom_write_discipline DEFAULT_SETTINGS
      (getLocalImageZoomParams "a".data) (-1) 300 "![[a|100]]".data).1.trans (by decide)

/-- C10: a wheel event with `deltaY = 0` over an image that already has a
size annotation takes neither the increment nor the decrement branch, so
the replacement substitutes the annotation for itself (the replace-rule
pair uses one template for its from- and with-strings), the resulting text
equals the original, and no write-back occurs. -/
theorem handleZoom_deltaZero_identity (settings : MouseWheelZoomSettings)
    (zoomParams : HandleZoomParams) (naturalWidth V : Int) (fileText : List Char)
    (hrep : zoomParams.replaceSizeExist.getReplaceFromString =
      zoomParams.replaceSizeExist.getReplaceWithString)
    (h : zoomParams.sizeMatchRegExp fileText = some V) :
    (handleZoom settings zoomParams 0 naturalWidth fileText).text = fileText ∧
    (handleZoom settings zoomParams 0 naturalWidth fileText).writes = [] := by
  have hsize : computeNewSize settings.stepSize V 0 = V := by
    rw [computeNewSize, if_neg (by omega), if_neg (fun hh => by omega)]
  have htext : (handleZoom settings zoomParams 0 naturalWidth fileText).text = fileText := by
    simp only [handleZoom, h, hsize]
    rw [← hrep]
    exact replaceFirst_self _ fileText
  refine ⟨htext, ?_⟩
  have hw : (handleZoom settings zoomParams 0 naturalWidth fileText).writes =
      (if (handleZoom settings zoomParams 0 naturalWidth fileText).text = fileText
        then []
        else [(handleZoom settings zoomParams 0 naturalWidth fileText).text]) := rfl
  rw [hw, if_pos htext]

/-- Witness for C10 at `![[pic.png|100]]` with `deltaY = 0`: the text is
returned as read and nothing is written. -/
theorem handleZoom_deltaZero_identity_witness :
    (handleZoom DEFAULT_SETTINGS (getLocalImageZoomParams "pic.png".data)
      0 300 "![[pic.png|100]]".data).text = "![[pic.png|100]]".data ∧
    (handleZoom DEFAULT_SETTINGS (getLocalImageZoomParams "pic.png".data)
      0 300 "![[pic.png|100]]".data).writes = [] :=
  handleZoom_deltaZero_identity DEFAULT_SETTINGS
    (getLocalImageZoomParams "pic.png".data) 300 100 "![[pic.png|100]]".data
    rfl (by decide)

/-- C7: stuck-modifier defense.  A wheel event arriving while the key-held
flag is set but whose payload reports the configured modifier key as not
active makes the handler clear the flag (via `onConfigKeyUp`, which also
re-enables scrolling) and return without attempting a zoom. -/
theorem onWheelEvent_stuck_modifier (settings : MouseWheelZoomSettings)
    (st : PluginState) (evt : WheelEvt) (target : ElementInfo)
    (h1 : st.isKeyHeldDown = true)
    (h2 : isConfiguredKeyDown settings evt = false) :
    onWheelEvent settings st evt target =
      ({ isKeyHeldDown := false, scrollDisabled := false }, false) := by
  rw [onWheelEvent, if_pos h1, if_pos (by simp [h2])]
  rfl

/-- Witness for C7: keydown(Alt) happened (flag set), then a wheel event
with `altKey = false` under the default Alt configuration clears the flag
and does not zoom. -/
theorem onWheelEvent_stuck_modifier_witness :
    onWheelEvent DEFAULT_SETTINGS
      { isKeyHeldDown := true, scrollDisabled := true }
      { deltaY := -1, altKey := false, ctrlKey := true, shiftKey := true }
      { nodeName := "IMG".data, classValue := [], filesource := [] } =
      ({ isKeyHeldDown := false, scrollDisabled := false }, false) :=
  onWheelEvent_stuck_modifier DEFAULT_SETTINGS
    { isKeyHeldDown := true, scrollDisabled := true }
    { deltaY := -1, altKey := false, ctrlKey := true, shiftKey := true }
    { nodeName := "IMG".data, classValue := [], filesource := [] }
    rfl (by decide)

/-! ## Claim theorems: dispatch and name derivation -/

theorem afterLastSlash_no_slash (s : List Char) (h : '/' ∉ s) :
    afterLastSlash s = s := by
  induction s with
  | nil => rfl
  | cons c cs ih =>
    have hc : ¬ (c = '/' ∨ '/' ∈ cs) := by
      intro hh
      rcases hh with hh | hh
      · exact h (by simp [hh])
      · exact h (by simp [hh])
    rw [afterLastSlash, if_neg hc]

theorem afterLastSlash_append (xs : List Char) (hxs : '/' ∉ xs) :
    ∀ dir : List Char, afterLastSlash (dir ++ '/' :: xs) = xs := by
  intro dir
  induction dir with
  | nil =>
    rw [List.nil_append, afterLastSlash, if_pos (Or.inl rfl)]
    exact afterLastSlash_no_slash xs hxs
  | cons d ds ih =>
    rw [List.cons_append, afterLastSlash,
      if_pos (Or.inr (List.mem_append_right ds (List.mem_cons_self '/' xs)))]
    exact ih

theorem take_sub3_append (base : List Char) (hlen : 3 ≤ base.length) :
    ∀ dir : List Char,
      (dir ++ '/' :: base).take ((dir ++ '/' :: base).length - 3) =
        dir ++ '/' :: base.take (base.length - 3) := by
  intro dir
  induction dir with
  | nil =>
    rw [List.nil_append, List.nil_append, List.length_cons]
    have h1 : base.length + 1 - 3 = (base.length - 3) + 1 := by omega
    rw [h1, List.take_succ_cons]
  | cons d ds ih =>
    rw [List.cons_append, List.cons_append, List.length_cons]
    have h2 : 3 ≤ (ds ++ '/' :: base).length := by
      rw [List.length_append, List.length_cons]; omega
    have h1 : (ds ++ '/' :: base).length + 1 - 3 =
        ((ds ++ '/' :: base).length - 3) + 1 := by omega
    rw [h1, List.take_succ_cons, ih]

/-- C4: annotation-syntax resolver dispatch.  `getZoomParams` checks its
three guards in fixed first-match-wins order: a URI containing `"http"`
selects the remote-image builder; otherwise a URI containing `"app://"`
selects the local-attachment builder on the name extracted from the URI;
otherwise an element class matching the drawing-embed marker selects the
local-attachment builder on the name derived from the `filesource`
attribute; and when none of the three matches it throws the
unresolvable-reference error, in which case the whole zoom attempt throws
and the document text is neither changed nor written. -/
theorem getZoomParams_dispatch (settings : MouseWheelZoomSettings)
    (deltaY naturalWidth : Int) (imageUri fileText : List Char)
    (target : ElementInfo) :
    (containsSub "http".data imageUri = true →
      getZoomParams imageUri fileText target =
        Except.ok (getRemoteImageZoomParams imageUri)) ∧
    (containsSub "http".data imageUri = false →
      containsSub "app://".data imageUri = true →
      getZoomParams imageUri fileText target =
        Except.ok (getLocalImageZoomParams (getLocalImageNameFromUri imageUri))) ∧
    (containsSub "http".data imageUri = false →
      containsSub "app://".data imageUri = false →
      containsSub "excalidraw-svg".data target.classValue = true →
      getZoomParams imageUri fileText target =
        Except.ok (getLocalImageZoomParams
          (afterLastSlash (target.filesource.take (target.filesource.length - 3))))) ∧
    (containsSub "http".data imageUri = false →
      containsSub "app://".data imageUri = false →
      containsSub "excalidraw-svg".data target.classValue = false →
      getZoomParams imageUri fileText target = Except.error "Image is not zoomable" ∧
      handleZoomEvent settings deltaY naturalWidth imageUri target fileText =
        ZoomOutcome.threw "Image is not zoomable" ∧
      outcomeWrites
        (handleZoomEvent settings deltaY naturalWidth imageUri target fileText) = [] ∧
      outcomeText fileText
        (handleZoomEvent settings deltaY naturalWidth imageUri target fileText) =
        fileText) := by
  refine ⟨?_, ?_, ?_, ?_⟩
  · intro h1
    rw [getZoomParams, if_pos h1]
  · intro h1 h2
    rw [getZoomParams, if_neg (by simp [h1]), if_pos h2]
  · intro h1 h2 h3
    rw [getZoomParams, if_neg (by simp [h1]), if_neg (by simp [h2]), if_pos h3]
  · intro h1 h2 h3
    have herr : getZoomParams imageUri fileText target =
        Except.error "Image is not zoomable" := by
      rw [getZoomParams, if_neg (by simp [h1]), if_neg (by simp [h2]),
        if_neg (by simp [h3])]
    have hev : handleZoomEvent settings deltaY naturalWidth imageUri target fileText =
        ZoomOutcome.threw "Image is not zoomable" := by
      rw [handleZoomEvent, herr]
    exact ⟨herr, hev, by rw [hev]; rfl, by rw [hev]; rfl⟩

/-- Witness for C4: one concrete input per dispatch branch — a remote URI,
an `app://` URI, a drawing-embed element, and an unresolvable reference
whose attempt throws and writes nothing. -/
theorem getZoomParams_dispatch_witness :
    getZoomParams "https://h/a.png".data "doc".data
      { nodeName := "IMG".data, classValue := [], filesource := [] } =
      Except.ok (getRemoteImageZoomParams "https://h/a.png".data) ∧
    getZoomParams "app://local/img.png".data "doc".data
      { nodeName := "IMG".data, classValue := [], filesource := [] } =
      Except.ok (getLocalImageZoomParams
        (getLocalImageNameFromUri "app://local/img.png".data)) ∧
    getZoomParams "blob:xyz".data "doc".data
      { nodeName := "IMG".data, classValue := "excalidraw-svg-item".data,
        filesource := "Drawings/sketch.md".data } =
      Except.ok (getLocalImageZoomParams
        (afterLastSlash ("Drawings/sketch.md".data.take
          ("Drawings/sketch.md".data.length - 3)))) ∧
    getZoomParams "blob:xyz".data "doc".data
      { nodeName := "IMG".data, classValue := "plain".data, filesource := [] } =
      Except.error "Image is not zoomable" ∧
    outcomeWrites (handleZoomEvent DEFAULT_SETTINGS (-1) 300 "blob:xyz".data
      { nodeName := "IMG".data, classValue := "plain".data, filesource := [] }
      "doc".data) = [] := by
  have h4 := (getZoomParams_dispatch DEFAULT_SETTINGS (-1) 300 "blob:xyz".data
    "doc".data
    { nodeName := "IMG".data, classValue := "plain".data, filesource := [] }).2.2.2
    (by decide) (by decide) (by decide)
  exact ⟨(getZoomParams_dispatch DEFAULT_SETTINGS (-1) 300 "https://h/a.png".data
      "doc".data
      { nodeName := "IMG".data, classValue := [], filesource := [] }).1 (by decide),
    (getZoomParams_dispatch DEFAULT_SETTINGS (-1) 300 "app://local/img.png".data
      "doc".data
      { nodeName := "IMG".data, classValue := [], filesource := [] }).2.1
      (by decide) (by decide),
    (getZoomParams_dispatch DEFAULT_SETTINGS (-1) 300 "blob:xyz".data "doc".data
      { nodeName := "IMG".data, classValue := "excalidraw-svg-item".data,
        filesource := "Drawings/sketch.md".data }).2.2.1
      (by decide) (by decide) (by decide),
    h4.1, h4.2.2.1⟩

/-- C6: drawing-embed name derivation.  For an element matched by the
drawing-embed class marker (and a URI matching neither earlier guard),
writing the `filesource` attribute as `dir ++ "/" ++ base` with no further
separator in `base` and at least 3 trailing characters to strip, the name
handed to the local-attachment builder is `base` with its trailing
3-character extension stripped — i.e. the attribute with its last 3
characters dropped, taken after the last `'/'`. -/
theorem getZoomParams_drawing_name (imageUri fileText dir base : List Char)
    (target : ElementInfo)
    (h1 : containsSub "http".data imageUri = false)
    (h2 : containsSub "app://".data imageUri = false)
    (h3 : containsSub "excalidraw-svg".data target.classValue = true)
    (hsrc : target.filesource = dir ++ '/' :: base)
    (hbase : '/' ∉ base) (hlen : 3 ≤ base.length) :
    getZoomParams imageUri fileText target =
      Except.ok (getLocalImageZoomParams (base.take (base.length - 3))) := by
  have hname : afterLastSlash
      (target.filesource.take (target.filesource.length - 3)) =
      base.take (base.length - 3) := by
    rw [hsrc, take_sub3_append base hlen dir]
    exact afterLastSlash_append (base.take (base.length - 3))
      (fun hh => hbase (List.take_subset _ _ hh)) dir
  rw [getZoomParams, if_neg (by simp [h1]), if_neg (by simp [h2]), if_pos h3, hname]

/-- Witness for C6: `filesource = "Drawings/sketch.md"` yields the image
name `sketch`. -/
theorem getZoomParams_drawing_name_witness :
    getZoomParams "blob:xyz".data "doc".data
      { nodeName := "IMG".data, classValue := "excalidraw-svg-item".data,
        filesource := "Drawings/sketch.md".data } =
      Except.ok (getLocalImageZoomParams "sketch".data) := by
  have h := getZoomParams_drawing_name "blob:xyz".data "doc".data
    "Drawings".data "sketch.md".data
    { nodeName := "IMG".data, classValue := "excalidraw-svg-item".data,
      filesource := "Drawings/sketch.md".data }
    (by decide) (by decide) (by decide) (by decide) (by decide) (by decide)
  have hn : "sketch.md".data.take ("sketch.md".data.length - 3) = "sketch".data := by
    decide
  rw [hn] at h
  exact h
